import Mathlib

/-
Verification development for the GreatFloorSurvey repository (src/app.py).

The program is a Streamlit form: an identity screen (`show_user_info_form`),
an upload screen (`show_upload_screen`) that normalizes each image, uploads
it to S3, and writes one DynamoDB record per submitted batch, and a
thank-you screen.  The embedding below models the submit handlers of the two
interactive screens as pure functions.  External effects are made explicit:

  * the uuid4 suffix draws become an oracle `Env.suffixes : Nat → Str`,
    indexed by the number of items processed so far in the batch (the code
    draws exactly one uuid per allow-listed item, in order);
  * success or failure of each `s3.upload_fileobj` call becomes an oracle
    `Env.uploadOk : Nat → Bool` over the same index;
  * image decoding (`PIL.Image.open`) failure is a per-item `corrupt` flag
    on the item; image content is modelled by its pixel dimensions, which is
    all the code inspects;
  * Python floats in the resize computation are modelled by exact rational
    arithmetic: `int(float(h) * (1280 / float(w)))` becomes the Nat floor
    division `h * 1280 / w` (for the magnitudes involved the double
    computation and the exact one agree on every concrete input used below);
  * an exception anywhere inside the `try` block aborts the handler: S3
    uploads already performed persist, and the DynamoDB `put_item` is not
    reached (the `except` branch only shows an error message).

Strings are modelled as `List Char`.
-/

namespace GreatFloorSurvey

/-- Python strings, modelled as lists of characters. -/
abbrev Str := List Char

/-- Whitespace characters removed by the Python `str.strip()` default. -/
def isPySpace (c : Char) : Bool :=
  c = ' ' || c = '\t' || c = '\n' || c = '\r' || c = '\x0b' || c = '\x0c'

/-- Python `s.strip()`: drop leading and trailing whitespace. -/
def pyStrip (s : Str) : Str :=
  ((s.dropWhile isPySpace).reverse.dropWhile isPySpace).reverse

/-- Embedding of `is_valid_email` (src/app.py line 103-104):
`re.match(r"[^@]+@[^@]+\.[^@]+", email)` converted to a boolean.
`re.match` anchors only at the start, so the call succeeds exactly when some
prefix of `email` matches the pattern, i.e. when there are positions
`i < j` such that: `i ≥ 1` and every character before index `i` differs from
the at-sign (the `[^@]+` group), the character at `i` is the at-sign, every
character strictly between `i` and `j` differs from the at-sign with at
least one such character (`[^@]+`), the character at `j` is a dot, and the
character at `j + 1` exists and differs from the at-sign (at least one
character for the final `[^@]+`); anything may follow. -/
def is_valid_email (e : Str) : Bool :=
  (List.range e.length).any fun i =>
    (List.range e.length).any fun j =>
      decide (0 < i) && decide (i + 1 < j) && decide (j + 1 < e.length) &&
      decide (e.getD i ' ' = '@') && decide (e.getD j ' ' = '.') &&
      (e.take i).all (fun c => c != '@') &&
      ((e.drop (i + 1)).take (j - (i + 1))).all (fun c => c != '@') &&
      (e.getD (j + 1) ' ' != '@')

/-- The identity fields accepted by the form (src/app.py lines 143-147). -/
structure Contributor where
  name : Str
  email : Str
  organisation : Str
deriving DecidableEq, Repr

/-- Outcome of pressing Continue on the identity form: one of the three
`st.error` branches, or the transition to the upload stage. -/
inductive FormResult where
  | errorName
  | errorEmail
  | errorOrganisation
  | proceed (info : Contributor)
deriving DecidableEq, Repr

/-- Embedding of the Continue handler of `show_user_info_form`
(src/app.py lines 127-149): strip the three fields, then the if/elif
chain in source order. -/
def show_user_info_form_submit (name email organisation : Str) : FormResult :=
  if pyStrip name = [] then .errorName
  else if is_valid_email (pyStrip email) = false then .errorEmail
  else if pyStrip organisation = [] then .errorOrganisation
  else .proceed ⟨pyStrip name, pyStrip email, pyStrip organisation⟩

/-- Embedding of `file.name.split('.')[-1].lower()` (src/app.py line 185):
everything after the last dot (the whole name when there is no dot),
lower-cased. -/
def extOf (s : Str) : Str :=
  ((s.reverse.takeWhile fun c => c != '.').reverse).map Char.toLower

/-- The allow-list check of src/app.py line 186: `ext in ["jpg", "jpeg"]`. -/
def allowedExt (e : Str) : Bool :=
  decide (e = "jpg".toList) || decide (e = "jpeg".toList)

/-- Python `s.replace(a, b)` for single characters. -/
def pyReplace (a b : Char) (s : Str) : Str :=
  s.map fun c => if c = a then b else c

/-- `timestamp.replace(' ', '_').replace(':', '-')` (src/app.py line 189). -/
def sanitizeTs (ts : Str) : Str :=
  pyReplace ':' '-' (pyReplace ' ' '_' ts)

/-- The generated object key (src/app.py line 189): the sanitized
timestamp, an underscore, the first 8 hex characters of a fresh uuid4 —
abstracted here as `suffix` — and the literal extension `.jpg`. -/
def genName (ts suffix : Str) : Str :=
  sanitizeTs ts ++ "_".toList ++ suffix ++ ".jpg".toList

/-- The resize rule of src/app.py lines 195-198: if the width exceeds 1280,
scale to width 1280 with height `int(float(h) * (1280 / float(w)))`,
modelled as floor division; otherwise keep the dimensions. -/
def resizeDims (w h : Nat) : Nat × Nat :=
  if 1280 < w then (1280, h * 1280 / w) else (w, h)

/-- The byte blob handed to `s3.upload_fileobj`: the image dimensions after
the optional resize, re-encoded with
`image.save(buffer, format="JPEG", quality=90, optimize=True)`
(src/app.py lines 200-201). -/
structure Blob where
  width : Nat
  height : Nat
  format : Str
  quality : Nat
  optimize : Bool
deriving DecidableEq, Repr

/-- Build the encoded blob from post-resize dimensions. -/
def mkBlob (d : Nat × Nat) : Blob :=
  ⟨d.1, d.2, "JPEG".toList, 90, true⟩

/-- One element of `uploaded_files`: its filename and its decoded content,
modelled by the pixel dimensions plus a flag saying whether
`PIL.Image.open` raises on it. -/
structure UploadItem where
  name : Str
  width : Nat
  height : Nat
  corrupt : Bool
deriving DecidableEq, Repr

/-- The exceptions that can escape the per-item work inside the `try` block:
a decode failure from `Image.open` or a storage failure from
`s3.upload_fileobj`. -/
inductive UploadErr where
  | decodeErr
  | storageErr
deriving DecidableEq, Repr

/-- Result of the per-item loop: the accumulated `uploaded_filenames` list
when every attempted item succeeded, or the first exception. -/
inductive BatchResult where
  | ok (names : List Str)
  | err (e : UploadErr)
deriving DecidableEq, Repr

/-- The ambient nondeterminism of one batch: the uuid4 hex-prefix draws and
the success of each S3 upload call, both indexed by the number of
allow-listed items processed so far. -/
structure Env where
  suffixes : Nat → Str
  uploadOk : Nat → Bool

/-- Embedding of the `for file in uploaded_files` loop (src/app.py lines
184-208).  Arguments: remaining items, index of the next processed item,
`uploaded_filenames` so far, S3 objects stored so far.  Returns the objects
stored (these persist even when an exception aborts the loop) and either the
final name list or the aborting exception.  In the source the generated name
is appended to `uploaded_filenames` before `Image.open` runs; on a decode
failure that longer list is dead (the only reader, `put_item`, is skipped),
so the model returns the names only on success. -/
def processLoop (env : Env) (ts : Str) :
    List UploadItem → Nat → List Str → List (Str × Blob) →
    List (Str × Blob) × BatchResult
  | [], _k, names, puts => (puts, .ok names)
  | it :: rest, k, names, puts =>
    if allowedExt (extOf it.name) then
      if it.corrupt then
        (puts, .err .decodeErr)
      else
        if env.uploadOk k then
          processLoop env ts rest (k + 1)
            (names ++ [genName ts (env.suffixes k)])
            (puts ++ [(genName ts (env.suffixes k), mkBlob (resizeDims it.width it.height))])
        else
          (puts, .err .storageErr)
    else
      processLoop env ts rest k names puts

/-- The item written by `table.put_item` (src/app.py lines 211-219). -/
structure SubmissionRecord where
  id : Str
  name : Str
  email : Str
  organisation : Str
  timestamp : Str
  num_photos : Nat
  photo_names : List Str
deriving DecidableEq, Repr

/-- Observable outcome of the upload screen on one batch: whether the
size warning was shown, the S3 objects created, the record handed to
`put_item` (none when the warning fired or an exception aborted the batch),
and the error surfaced by the `except` branch. -/
structure Outcome where
  warned : Bool
  puts : List (Str × Blob)
  record : Option SubmissionRecord
  errorShown : Option UploadErr
deriving DecidableEq, Repr

/-- What happens after the item loop (src/app.py lines 210-225): when the
loop finished without an exception, `put_item` writes the record built from
`uploaded_filenames`; when an exception escaped, the `except` branch shows
the error and nothing is recorded. -/
def finishBatch (user_id : Str) (info : Contributor) (timestamp : Str) :
    List (Str × Blob) × BatchResult → Outcome
  | (puts, .ok names) =>
    ⟨false, puts,
      some ⟨user_id, info.name, info.email, info.organisation, timestamp,
        names.length, names⟩,
      none⟩
  | (puts, .err e) => ⟨false, puts, none, some e⟩

/-- Embedding of the Submit Photos handler of `show_upload_screen`
(src/app.py lines 173-225): nothing happens on an empty picker, the
50-item cap shows a warning before any processing, otherwise the item loop
runs and, when it completes without an exception, `put_item` records the
batch. -/
def show_upload_screen_submit (env : Env) (user_id : Str) (info : Contributor)
    (timestamp : Str) (files : List UploadItem) : Outcome :=
  if files.length = 0 then ⟨false, [], none, none⟩
  else if 50 < files.length then ⟨true, [], none, none⟩
  else finishBatch user_id info timestamp (processLoop env timestamp files 0 [] [])

/-- Modelled from the spec: `round(height * max_width / width)` — the spec
calls for Python `round`, i.e. round-half-to-even, here on the exact
rational `a / b`.  Used only to compare the spec formula against the code. -/
def pyRound (a b : Nat) : Nat :=
  let q := a / b
  let r := a % b
  if 2 * r < b then q
  else if b < 2 * r then q + 1
  else if q % 2 = 0 then q else q + 1

/-- A contributor used in concrete runs. -/
def info0 : Contributor :=
  ⟨"Jo Lee".toList, "jo@example.com".toList, "Senstride".toList⟩

/-- A batch identifier used in concrete runs. -/
def uid0 : Str := "user-0001".toList

/-- A batch timestamp used in concrete runs. -/
def ts0 : Str := "2025-01-01 10:00:00".toList

/-- Oracle with a constant uuid draw and reliable uploads. -/
def envTriv : Env := ⟨fun _k => "aaaaaaaa".toList, fun _k => true⟩

/-- Oracle with distinct uuid draws and reliable uploads. -/
def envDistinct : Env :=
  ⟨fun k => if k = 0 then "00000000".toList else "11111111".toList,
   fun _k => true⟩

example : extOf ("photo.JPG".toList) = "jpg".toList := by decide

example : is_valid_email ("jo@example.com".toList) = true := by decide

example : is_valid_email ("not-an-email".toList) = false := by decide

example : is_valid_email ("a@b@c.d".toList) = false := by decide

example :
    show_upload_screen_submit envTriv uid0 info0 ts0
        [⟨"a.jpg".toList, 2000, 1000, false⟩] =
      ⟨false,
        [("2025-01-01_10-00-00_aaaaaaaa.jpg".toList, ⟨1280, 640, "JPEG".toList, 90, true⟩)],
        some ⟨uid0, info0.name, info0.email, info0.organisation, ts0, 1,
          ["2025-01-01_10-00-00_aaaaaaaa.jpg".toList]⟩,
        none⟩ := by decide

/-- The names produced by a successful run of the item loop are the
generated names for the consecutive suffix draws starting at the current
index, appended to the accumulator. -/
theorem processLoop_ok_names (env : Env) (ts : Str) :
    ∀ (files : List UploadItem) (k : Nat) (names : List Str)
      (puts puts2 : List (Str × Blob)) (names2 : List Str),
      processLoop env ts files k names puts = (puts2, .ok names2) →
      ∃ m, names2 =
        names ++ (List.range' k m).map fun i => genName ts (env.suffixes i)
  | [], k, names, puts, puts2, names2 => by
    intro h
    simp only [processLoop, Prod.mk.injEq, BatchResult.ok.injEq] at h
    exact ⟨0, by simp [← h.2]⟩
  | it :: rest, k, names, puts, puts2, names2 => by
    intro h
    simp only [processLoop] at h
    by_cases hA : allowedExt (extOf it.name) = true
    · rw [if_pos hA] at h
      by_cases hC : it.corrupt = true
      · rw [if_pos hC] at h
        simp only [Prod.mk.injEq] at h
        exact absurd h.2 (by simp)
      · rw [if_neg hC] at h
        by_cases hU : env.uploadOk k = true
        · rw [if_pos hU] at h
          obtain ⟨m, hm⟩ := processLoop_ok_names env ts rest _ _ _ _ _ h
          refine ⟨m + 1, ?_⟩
          rw [hm, List.append_assoc, List.singleton_append, List.range'_succ,
            List.map_cons]
        · rw [if_neg hU] at h
          simp only [Prod.mk.injEq] at h
          exact absurd h.2 (by simp)
    · rw [if_neg hA] at h
      exact processLoop_ok_names env ts rest _ _ _ _ _ h

/-- When the item loop finishes without an exception, every name it
accumulated has a matching object among the stored ones. -/
theorem processLoop_ok_uploaded (env : Env) (ts : Str) :
    ∀ (files : List UploadItem) (k : Nat) (names : List Str)
      (puts puts2 : List (Str × Blob)) (names2 : List Str),
      processLoop env ts files k names puts = (puts2, .ok names2) →
      (∀ nm ∈ names, ∃ b, (nm, b) ∈ puts) →
      ∀ nm ∈ names2, ∃ b, (nm, b) ∈ puts2
  | [], k, names, puts, puts2, names2 => by
    intro h hinv
    simp only [processLoop, Prod.mk.injEq, BatchResult.ok.injEq] at h
    rw [← h.1, ← h.2]
    exact hinv
  | it :: rest, k, names, puts, puts2, names2 => by
    intro h hinv
    simp only [processLoop] at h
    by_cases hA : allowedExt (extOf it.name) = true
    · rw [if_pos hA] at h
      by_cases hC : it.corrupt = true
      · rw [if_pos hC] at h
        simp only [Prod.mk.injEq] at h
        exact absurd h.2 (by simp)
      · rw [if_neg hC] at h
        by_cases hU : env.uploadOk k = true
        · rw [if_pos hU] at h
          refine processLoop_ok_uploaded env ts rest _ _ _ _ _ h ?_
          intro nm hnm
          rcases List.mem_append.1 hnm with h1 | h1
          · obtain ⟨b, hb⟩ := hinv nm h1
            exact ⟨b, List.mem_append_left _ hb⟩
          · rw [List.mem_singleton] at h1
            subst h1
            exact ⟨_, List.mem_append_right _ (List.mem_singleton.2 rfl)⟩
        · rw [if_neg hU] at h
          simp only [Prod.mk.injEq] at h
          exact absurd h.2 (by simp)
    · rw [if_neg hA] at h
      exact processLoop_ok_uploaded env ts rest _ _ _ _ _ h hinv

/-- Every object the item loop stores carries a generated name and a blob
re-encoded as JPEG at quality 90, whatever the run outcome. -/
theorem processLoop_puts_shape (env : Env) (ts : Str) :
    ∀ (files : List UploadItem) (k : Nat) (names : List Str)
      (puts : List (Str × Blob)),
      (∀ p ∈ puts, (∃ j, p.1 = genName ts (env.suffixes j)) ∧
        p.2.format = "JPEG".toList ∧ p.2.quality = 90) →
      ∀ p ∈ (processLoop env ts files k names puts).1,
        (∃ j, p.1 = genName ts (env.suffixes j)) ∧
        p.2.format = "JPEG".toList ∧ p.2.quality = 90
  | [], k, names, puts => by
    intro hinv p hp
    simpa only [processLoop] using hinv p hp
  | it :: rest, k, names, puts => by
    intro hinv p hp
    simp only [processLoop] at hp
    by_cases hA : allowedExt (extOf it.name) = true
    · rw [if_pos hA] at hp
      by_cases hC : it.corrupt = true
      · rw [if_pos hC] at hp
        exact hinv p hp
      · rw [if_neg hC] at hp
        by_cases hU : env.uploadOk k = true
        · rw [if_pos hU] at hp
          refine processLoop_puts_shape env ts rest _ _ _ ?_ p hp
          intro q hq
          rcases List.mem_append.1 hq with h1 | h1
          · exact hinv q h1
          · rw [List.mem_singleton] at h1
            subst h1
            exact ⟨⟨k, rfl⟩, rfl, rfl⟩
        · rw [if_neg hU] at hp
          exact hinv p hp
    · rw [if_neg hA] at hp
      exact processLoop_puts_shape env ts rest _ _ _ hinv p hp

/-- Distinct suffixes yield distinct generated names. -/
theorem genName_inj (ts s1 s2 : Str) (h : genName ts s1 = genName ts s2) :
    s1 = s2 :=
  List.append_cancel_left (List.append_cancel_right h)

/-- Every generated name ends in the canonical extension. -/
theorem genName_ends_jpg (ts s : Str) :
    ∃ pre, genName ts s = pre ++ ".jpg".toList :=
  ⟨sanitizeTs ts ++ "_".toList ++ s, by simp [genName, List.append_assoc]⟩

/-- C1: whenever the upload screen writes a SubmissionRecord, its
`num_photos` equals the length of its `photo_names` list, and every listed
name is the key of an object that was stored in the object store during
that same run; an execution in which an upload fails mid-batch writes no
record at all, so no record ever overstates what was stored. -/
theorem record_matches_uploads (env : Env) (uid : Str) (info : Contributor)
    (ts : Str) (files : List UploadItem) (r : SubmissionRecord)
    (h : (show_upload_screen_submit env uid info ts files).record = some r) :
    r.num_photos = r.photo_names.length ∧
    ∀ nm ∈ r.photo_names, ∃ b,
      (nm, b) ∈ (show_upload_screen_submit env uid info ts files).puts := by
  unfold show_upload_screen_submit at h ⊢
  by_cases h0 : files.length = 0
  · rw [if_pos h0] at h
    exact absurd h (by simp)
  rw [if_neg h0] at h ⊢
  by_cases h50 : 50 < files.length
  · rw [if_pos h50] at h
    exact absurd h (by simp)
  rw [if_neg h50] at h ⊢
  rcases hp : processLoop env ts files 0 [] [] with ⟨puts2, res⟩
  rw [hp] at h
  cases res with
  | err e => simp [finishBatch] at h
  | ok names =>
    simp only [finishBatch, Option.some.injEq] at h
    subst h
    refine ⟨rfl, ?_⟩
    intro nm hnm
    simp only [finishBatch]
    exact processLoop_ok_uploaded env ts files 0 [] [] puts2 names hp
      (by simp) nm hnm

/-- C1 witness: a concrete one-item batch produces a record, and the
theorem applies to it. -/
theorem record_matches_uploads_witness :
    (show_upload_screen_submit envTriv uid0 info0 ts0
        [⟨"a.jpg".toList, 2000, 1000, false⟩]).record =
      some ⟨uid0, info0.name, info0.email, info0.organisation, ts0, 1,
        ["2025-01-01_10-00-00_aaaaaaaa.jpg".toList]⟩ ∧
    (1 : Nat) = (["2025-01-01_10-00-00_aaaaaaaa.jpg".toList] : List Str).length :=
  ⟨by decide,
    (record_matches_uploads envTriv uid0 info0 ts0
      [⟨"a.jpg".toList, 2000, 1000, false⟩]
      ⟨uid0, info0.name, info0.email, info0.organisation, ts0, 1,
        ["2025-01-01_10-00-00_aaaaaaaa.jpg".toList]⟩ (by decide)).1⟩

/-- C6: a batch of more than 50 items is rejected with the warning before
any processing: no object is stored and no record is written. -/
theorem oversize_batch_rejected (env : Env) (uid : Str) (info : Contributor)
    (ts : Str) (files : List UploadItem) (h : 50 < files.length) :
    show_upload_screen_submit env uid info ts files = ⟨true, [], none, none⟩ := by
  unfold show_upload_screen_submit
  rw [if_neg (by omega : ¬ files.length = 0), if_pos h]

/-- C6 witness: a concrete batch of 51 items is rejected. -/
theorem oversize_batch_rejected_witness :
    show_upload_screen_submit envTriv uid0 info0 ts0
        (List.replicate 51 ⟨"a.jpg".toList, 10, 10, false⟩) =
      ⟨true, [], none, none⟩ :=
  oversize_batch_rejected envTriv uid0 info0 ts0
    (List.replicate 51 ⟨"a.jpg".toList, 10, 10, false⟩) (by simp)

/-- C5 counterexample: a submitted batch whose single item is skipped by the
extension re-filter still reaches `put_item` — the recorder is called with
zero confirmed assets (`num_photos = 0`, no object stored), contradicting
the claim that it is never called for such a batch. -/
theorem recorder_zero_assets_counterexample :
    (show_upload_screen_submit envTriv uid0 info0 ts0
        [⟨"notes.txt".toList, 100, 100, false⟩]).record =
      some ⟨uid0, info0.name, info0.email, info0.organisation, ts0, 0, []⟩ ∧
    (show_upload_screen_submit envTriv uid0 info0 ts0
        [⟨"notes.txt".toList, 100, 100, false⟩]).puts = [] := by
  constructor
  · decide
  · decide

/-- C5 amended: the recorder is called exactly once per submitted batch
whose item loop completes without an exception — including a batch with
zero confirmed assets, which produces a record with `num_photos = 0`. -/
theorem recorder_once_per_completed_batch (env : Env) (uid : Str)
    (info : Contributor) (ts : Str) (files : List UploadItem)
    (puts2 : List (Str × Blob)) (names : List Str)
    (h0 : files.length ≠ 0) (h50 : files.length ≤ 50)
    (hloop : processLoop env ts files 0 [] [] = (puts2, .ok names)) :
    (show_upload_screen_submit env uid info ts files).record =
      some ⟨uid, info.name, info.email, info.organisation, ts,
        names.length, names⟩ := by
  unfold show_upload_screen_submit
  rw [if_neg h0, if_neg (by omega : ¬ 50 < files.length), hloop]
  rfl

/-- C5 amended witness: the all-skipped one-item batch. -/
theorem recorder_once_per_completed_batch_witness :
    (show_upload_screen_submit envTriv uid0 info0 ts0
        [⟨"notes.txt".toList, 100, 100, false⟩]).record =
      some ⟨uid0, info0.name, info0.email, info0.organisation, ts0, 0, []⟩ :=
  recorder_once_per_completed_batch envTriv uid0 info0 ts0
    [⟨"notes.txt".toList, 100, 100, false⟩] [] [] (by decide) (by decide)
    (by decide)

/-- C2: what the code actually does on the failing input — a batch whose
first item fails to decode followed by a perfectly valid item.  The single
try/except around the whole loop aborts the batch: the valid second item is
never normalized or uploaded (no object stored), no record is written, and
one batch-level error is shown, instead of the per-item failure isolation
the claim (and spec section 7) require. -/
theorem decode_failure_aborts_whole_batch :
    show_upload_screen_submit envTriv uid0 info0 ts0
        [⟨"a.jpg".toList, 100, 100, true⟩, ⟨"b.jpg".toList, 100, 100, false⟩] =
      ⟨false, [], none, some .decodeErr⟩ := by
  decide

/-- C3 counterexample: for a 1920 by 1081 image the code computes target
height `int(1081 * 1280 / 1920) = 720` (truncation), while the claimed
formula `round(1081 * 1280 / 1920)` gives 721. -/
theorem resize_height_not_round_counterexample :
    (show_upload_screen_submit envTriv uid0 info0 ts0
        [⟨"p.jpg".toList, 1920, 1081, false⟩]).puts =
      [(genName ts0 (envTriv.suffixes 0),
        ⟨1280, 720, "JPEG".toList, 90, true⟩)] ∧
    pyRound (1081 * 1280) 1920 = 721 ∧ (720 : Nat) ≠ 721 := by
  refine ⟨by decide, by decide, by decide⟩

/-- C3 amended: for every image, when its width exceeds 1280 the stored
blob has width 1280 and height the truncation `h * 1280 / w` (floor, not
round); when the width is at most 1280 the dimensions are unchanged.
Stated over a one-item batch through the full upload pipeline. -/
theorem resize_dims_floor (env : Env) (uid : Str) (info : Contributor)
    (ts : Str) (fname : Str) (w h : Nat)
    (hext : allowedExt (extOf fname) = true)
    (hup : env.uploadOk 0 = true) :
    (show_upload_screen_submit env uid info ts [⟨fname, w, h, false⟩]).puts =
      [(genName ts (env.suffixes 0),
        ⟨if 1280 < w then 1280 else w,
         if 1280 < w then h * 1280 / w else h,
         "JPEG".toList, 90, true⟩)] := by
  unfold show_upload_screen_submit
  rw [if_neg (by simp), if_neg (by simp)]
  simp only [processLoop, hext, if_true, hup, finishBatch]
  by_cases hw : 1280 < w
  · simp [resizeDims, mkBlob, hw, finishBatch]
  · simp [resizeDims, mkBlob, hw, finishBatch]

/-- C3 amended witness: a 4000 by 3000 image is stored at 1280 by 960. -/
theorem resize_dims_floor_witness :
    (show_upload_screen_submit envTriv uid0 info0 ts0
        [⟨"photo.jpeg".toList, 4000, 3000, false⟩]).puts =
      [(genName ts0 (envTriv.suffixes 0),
        ⟨1280, 960, "JPEG".toList, 90, true⟩)] := by
  rw [resize_dims_floor envTriv uid0 info0 ts0 ("photo.jpeg".toList) 4000 3000
    (by decide) rfl]
  decide

/-- C10: a 2000 by 1 image passes the width check and the computed target
height `int(1 * 1280 / 2000)` is 0, so the resize and the stored blob have
the degenerate dimensions 1280 by 0; nothing guards against it. -/
theorem degenerate_zero_height_resize :
    (show_upload_screen_submit envTriv uid0 info0 ts0
        [⟨"wide.jpg".toList, 2000, 1, false⟩]).puts =
      [(genName ts0 (envTriv.suffixes 0),
        ⟨1280, 0, "JPEG".toList, 90, true⟩)] ∧
    resizeDims 2000 1 = (1280, 0) ∧ 1280 < 2000 ∧ 1 * 1280 < 2000 := by
  refine ⟨by decide, by decide, by decide, by decide⟩

/-- C4 counterexample: with a non-empty name and a pattern-matching email
but an empty organisation, the form does not transition — it stops at the
organisation error — so the claimed two-condition iff fails on the code. -/
theorem identity_transition_counterexample :
    show_user_info_form_submit ("Jo".toList) ("jo@example.com".toList)
        ("".toList) = .errorOrganisation ∧
    pyStrip ("Jo".toList) ≠ [] ∧
    is_valid_email (pyStrip ("jo@example.com".toList)) = true := by
  refine ⟨by decide, by decide, by decide⟩

/-- C4 amended: the identity step transitions to the upload stage iff the
trimmed name is non-empty, the trimmed email matches the accepted pattern,
and the trimmed organisation is non-empty. -/
theorem identity_transition_iff (name email organisation : Str) :
    (∃ c, show_user_info_form_submit name email organisation = .proceed c) ↔
      (pyStrip name ≠ [] ∧ is_valid_email (pyStrip email) = true ∧
        pyStrip organisation ≠ []) := by
  unfold show_user_info_form_submit
  split_ifs with h1 h2 h3
  · simp [h1]
  · simp [h2]
  · simp [h3]
  · simp only [Bool.not_eq_false] at h2
    simp [h1, h2, h3]

/-- C7 counterexample: when the two uuid draws of a batch collide (the
oracle returns the same 8-character suffix twice), the two items of the
batch get identical generated names — the recorded name list has a
duplicate — so unconditional in-batch uniqueness fails: the code never
checks for suffix collisions. -/
theorem duplicate_names_on_colliding_suffixes :
    (show_upload_screen_submit envTriv uid0 info0 ts0
        [⟨"x.jpg".toList, 10, 10, false⟩,
         ⟨"y.jpg".toList, 10, 10, false⟩]).record =
      some ⟨uid0, info0.name, info0.email, info0.organisation, ts0, 2,
        ["2025-01-01_10-00-00_aaaaaaaa.jpg".toList,
         "2025-01-01_10-00-00_aaaaaaaa.jpg".toList]⟩ ∧
    ¬ (["2025-01-01_10-00-00_aaaaaaaa.jpg".toList,
        "2025-01-01_10-00-00_aaaaaaaa.jpg".toList] : List Str).Nodup := by
  refine ⟨by decide, by decide⟩

/-- C7 amended: every recorded name is the sanitized batch timestamp, an
underscore, the k-th suffix draw, and the extension `.jpg` — in draw
order — and whenever the suffix draws of the batch are pairwise distinct
(as random 8-hex draws are with overwhelming probability) no two items of
the batch share a name, whatever their original filenames. -/
theorem batch_names_structure (env : Env) (uid : Str) (info : Contributor)
    (ts : Str) (files : List UploadItem) (r : SubmissionRecord)
    (h : (show_upload_screen_submit env uid info ts files).record = some r) :
    r.photo_names =
      (List.range r.num_photos).map (fun k => genName ts (env.suffixes k)) ∧
    (List.Pairwise (fun i j => env.suffixes i ≠ env.suffixes j)
        (List.range r.num_photos) →
      r.photo_names.Nodup) := by
  unfold show_upload_screen_submit at h
  by_cases h0 : files.length = 0
  · rw [if_pos h0] at h
    exact absurd h (by simp)
  rw [if_neg h0] at h
  by_cases h50 : 50 < files.length
  · rw [if_pos h50] at h
    exact absurd h (by simp)
  rw [if_neg h50] at h
  rcases hp : processLoop env ts files 0 [] [] with ⟨puts2, res⟩
  rw [hp] at h
  cases res with
  | err e => simp [finishBatch] at h
  | ok names =>
    simp only [finishBatch, Option.some.injEq] at h
    have hpn : r.photo_names = names := by rw [← h]
    have hnp : r.num_photos = names.length := by rw [← h]
    obtain ⟨m, hm⟩ := processLoop_ok_names env ts files 0 [] [] puts2 names hp
    simp only [List.nil_append] at hm
    have hlen : names.length = m := by
      rw [hm]; simp
    constructor
    · rw [hpn, hnp, hlen, hm, List.range_eq_range']
    · intro hpair
      rw [hnp, hlen] at hpair
      rw [hpn, hm, ← List.range_eq_range']
      have hne : List.Pairwise
          (fun a b => genName ts (env.suffixes a) ≠ genName ts (env.suffixes b))
          (List.range m) :=
        hpair.imp fun hab hgab => hab (genName_inj ts _ _ hgab)
      exact List.pairwise_map.2 hne

/-- C7 amended witness: two items with distinct suffix draws get distinct
recorded names. -/
theorem batch_names_structure_witness :
    (["2025-01-01_10-00-00_00000000.jpg".toList,
      "2025-01-01_10-00-00_11111111.jpg".toList] : List Str).Nodup := by
  have h := batch_names_structure envDistinct uid0 info0 ts0
    [⟨"x.jpg".toList, 10, 10, false⟩, ⟨"y.jpg".toList, 10, 10, false⟩]
    ⟨uid0, info0.name, info0.email, info0.organisation, ts0, 2,
      ["2025-01-01_10-00-00_00000000.jpg".toList,
       "2025-01-01_10-00-00_11111111.jpg".toList]⟩ (by decide)
  exact h.2 (by decide)

/-- The anchored match of `is_valid_email` is closed under appending
arbitrary characters: `re.match` only constrains a prefix. -/
theorem is_valid_email_append (s t : Str) (h : is_valid_email s = true) :
    is_valid_email (s ++ t) = true := by
  unfold is_valid_email at h ⊢
  rw [List.any_eq_true] at h
  obtain ⟨i, hi, h⟩ := h
  rw [List.any_eq_true] at h
  obtain ⟨j, hj, h⟩ := h
  rw [List.mem_range] at hi hj
  simp only [Bool.and_eq_true, decide_eq_true_eq] at h
  obtain ⟨⟨⟨⟨⟨⟨⟨h0i, hij⟩, hjl⟩, hat⟩, hdot⟩, hpre⟩, hmid⟩, hlast⟩ := h
  rw [List.any_eq_true]
  refine ⟨i, List.mem_range.2 ?_, ?_⟩
  · rw [List.length_append]; omega
  rw [List.any_eq_true]
  refine ⟨j, List.mem_range.2 ?_, ?_⟩
  · rw [List.length_append]; omega
  simp only [Bool.and_eq_true, decide_eq_true_eq]
  have hgi : (s ++ t).getD i ' ' = s.getD i ' ' :=
    List.getD_append _ _ _ _ (by omega)
  have hgj : (s ++ t).getD j ' ' = s.getD j ' ' :=
    List.getD_append _ _ _ _ (by omega)
  have hgj1 : (s ++ t).getD (j + 1) ' ' = s.getD (j + 1) ' ' :=
    List.getD_append _ _ _ _ (by omega)
  have htk : (s ++ t).take i = s.take i :=
    List.take_append_of_le_length (by omega)
  have hmid2 : ((s ++ t).drop (i + 1)).take (j - (i + 1)) =
      (s.drop (i + 1)).take (j - (i + 1)) := by
    rw [List.drop_append_of_le_length (by omega : i + 1 ≤ s.length)]
    exact List.take_append_of_le_length (by rw [List.length_drop]; omega)
  refine ⟨⟨⟨⟨⟨⟨⟨h0i, hij⟩, ?_⟩, ?_⟩, ?_⟩, ?_⟩, ?_⟩, ?_⟩
  · rw [List.length_append]; omega
  · rw [hgi]; exact hat
  · rw [hgj]; exact hdot
  · rw [htk]; exact hpre
  · rw [hmid2]; exact hmid
  · rw [hgj1]; exact hlast

/-- C8: the email check is anchored only at the start — any string
extending an accepted one is accepted — and in particular an address with
trailing junk after a well-formed prefix passes the identity transition. -/
theorem email_match_anchored_only_at_start :
    (∀ s t : Str, is_valid_email s = true → is_valid_email (s ++ t) = true) ∧
    show_user_info_form_submit ("Jo".toList)
        ("jo@example.com trailing junk".toList) ("Senstride".toList) =
      .proceed ⟨"Jo".toList, "jo@example.com trailing junk".toList,
        "Senstride".toList⟩ :=
  ⟨is_valid_email_append, by decide⟩

/-- C8 witness: a concrete accepted prefix stays accepted after junk is
appended. -/
theorem email_match_anchored_witness :
    is_valid_email ("a@b.c".toList ++ " junk@@".toList) = true :=
  email_match_anchored_only_at_start.1 ("a@b.c".toList) (" junk@@".toList)
    (by decide)

/-- C9: every object stored by a batch, and every name recorded for it,
uses a generated key — the sanitized timestamp plus a drawn suffix, ending
in `.jpg` and independent of the original filename — and every stored blob
is re-encoded as JPEG at quality 90, whether the original extension was
`jpg`, `jpeg` or any case variant thereof. -/
theorem stored_assets_canonical (env : Env) (uid : Str) (info : Contributor)
    (ts : Str) (files : List UploadItem) :
    (∀ nm b, (nm, b) ∈ (show_upload_screen_submit env uid info ts files).puts →
      (∃ j, nm = genName ts (env.suffixes j)) ∧
      (∃ pre, nm = pre ++ ".jpg".toList) ∧
      b.format = "JPEG".toList ∧ b.quality = 90) ∧
    (∀ r, (show_upload_screen_submit env uid info ts files).record = some r →
      ∀ nm ∈ r.photo_names,
        (∃ j, nm = genName ts (env.suffixes j)) ∧
        ∃ pre, nm = pre ++ ".jpg".toList) := by
  unfold show_upload_screen_submit
  by_cases h0 : files.length = 0
  · rw [if_pos h0]
    constructor
    · intro nm b hmem
      exact absurd hmem (by simp)
    · intro r hr
      exact absurd hr (by simp)
  rw [if_neg h0]
  by_cases h50 : 50 < files.length
  · rw [if_pos h50]
    constructor
    · intro nm b hmem
      exact absurd hmem (by simp)
    · intro r hr
      exact absurd hr (by simp)
  rw [if_neg h50]
  rcases hp : processLoop env ts files 0 [] [] with ⟨puts2, res⟩
  constructor
  · intro nm b hmem
    have hput : (nm, b) ∈ (processLoop env ts files 0 [] []).1 := by
      rw [hp]
      cases res with
      | err e => simpa [finishBatch] using hmem
      | ok names => simpa [finishBatch] using hmem
    have hs := processLoop_puts_shape env ts files 0 [] [] (by simp)
      (nm, b) hput
    obtain ⟨⟨j, hj⟩, hf, hq⟩ := hs
    refine ⟨⟨j, hj⟩, ?_, hf, hq⟩
    have hj2 : nm = genName ts (env.suffixes j) := hj
    rw [hj2]
    exact genName_ends_jpg ts (env.suffixes j)
  · intro r hr nm hnm
    cases res with
    | err e => simp [finishBatch] at hr
    | ok names =>
      simp only [finishBatch, Option.some.injEq] at hr
      have hpn : r.photo_names = names := by rw [← hr]
      obtain ⟨m, hm⟩ := processLoop_ok_names env ts files 0 [] [] puts2 names hp
      simp only [List.nil_append] at hm
      rw [hpn, hm] at hnm
      obtain ⟨i, _, hi⟩ := List.mem_map.1 hnm
      refine ⟨⟨i, hi.symm⟩, ?_⟩
      rw [← hi]
      exact genName_ends_jpg ts (env.suffixes i)

/-- C9 witness: a concrete stored blob from an upper-case `.JPG` original
is JPEG at quality 90 under its generated name. -/
theorem stored_assets_canonical_witness :
    (Blob.mk 10 10 ("JPEG".toList) 90 true).format = "JPEG".toList ∧
    (Blob.mk 10 10 ("JPEG".toList) 90 true).quality = 90 := by
  have h := (stored_assets_canonical envTriv uid0 info0 ts0
      [⟨"up.JPG".toList, 10, 10, false⟩]).1
      (genName ts0 (envTriv.suffixes 0)) ⟨10, 10, "JPEG".toList, 90, true⟩
      (by decide)
  exact ⟨h.2.2.1, h.2.2.2⟩

end GreatFloorSurvey
